import Mathlib

/-!
Verification development for the hash-cracker requestor
(src/requestor.py).  The Python source is shallowly embedded below:

* the partitioner `data` (requestor.py lines 34-47),
* the per-task command sequence built by `worker` (lines 58-71),
* the result-aggregation loop of `main` (lines 90-103).

Machine integers do not occur; Python ints are modelled as `Int`/`Nat`.
Python `math.ceil(a / b)` performs true division and then takes the
ceiling; it is modelled as the ceiling of the exact rational quotient
(exact for every operand the program can meet below 2^53).
-/

namespace HashCracker

/-- Embedding of Python `math.ceil(a / b)` on integers: the ceiling of
the exact rational quotient `a / b`. -/
def mathCeilDiv (a b : Int) : Int := ⌈(a : ℚ) / (b : ℚ)⌉

/-- Errors the Python partitioner can raise, plus the
`invalidConfiguration` error that the specification's error taxonomy
names (no code in requestor.py constructs it; it is listed so that the
specification's claim about it can be stated). -/
inductive PartitionError
  | zeroDivisionError
  | valueError
  | invalidConfiguration
deriving DecidableEq, Repr

/-- Embedding of the slicing loop
`for i in range(0, len(lines), chunk_size): yield lines[i : i + chunk_size]`
(requestor.py lines 45-47) for a positive step `c`: successive slices of
length `c` taken from the front of the remaining list.  The `c = 0`
branch is unreachable from `data`, which raises `valueError` first,
mirroring Python's `range` rejecting a zero step. -/
def sliceChunks (c : Nat) : List String → List (List String)
  | [] => []
  | x :: xs =>
    if _h : c = 0 then []
    else (x :: xs).take c :: sliceChunks c ((x :: xs).drop c)
termination_by l => l.length
decreasing_by
  simp [List.length_drop]
  omega

/-- Embedding of `data` (requestor.py lines 34-47).  The file read
produces the stripped `lines`; the chunking itself is
`chunk_size = math.ceil(len(lines) / chunk_count)` followed by the
slicing loop.  Python's behaviours at the boundary are kept:
`chunk_count = 0` raises `ZeroDivisionError` inside the division;
`chunk_size = 0` makes `range(0, L, 0)` raise `ValueError`;
a negative `chunk_size` makes `range(0, L, chunk_size)` empty, so no
chunk is yielded. -/
def data (lines : List String) (chunk_count : Int) :
    Except PartitionError (List (List String)) :=
  if chunk_count = 0 then .error .zeroDivisionError
  else
    let chunk_size : Int := mathCeilDiv (lines.length : Int) chunk_count
    if chunk_size = 0 then .error .valueError
    else if chunk_size < 0 then .ok []
    else .ok (sliceChunks chunk_size.toNat lines)

/-- Ceiling division on naturals, `(a + b - 1) / b`: the value
`math.ceil(a / b)` takes when both operands are naturals and `b > 0`. -/
def ceilN (a b : Nat) : Nat := (a + b - 1) / b

theorem mathCeilDiv_natCast (L N : Nat) (hN : 0 < N) :
    mathCeilDiv (L : Int) (N : Int) = (ceilN L N : Int) := by
  obtain ⟨m, rfl⟩ : ∃ m, N = m + 1 := ⟨N - 1, by omega⟩
  have hLm : L + (m + 1) - 1 = L + m := by omega
  have hk1 : (L + (m + 1) - 1) / (m + 1) * (m + 1) ≤ L + m := by
    rw [hLm]
    exact Nat.div_mul_le_self _ _
  have hk2 : L + m < ((L + (m + 1) - 1) / (m + 1) + 1) * (m + 1) := by
    rw [hLm]
    exact (Nat.div_lt_iff_lt_mul (Nat.succ_pos m)).1 (Nat.lt_succ_self _)
  have hQpos : (0 : ℚ) < ((m + 1 : Nat) : ℚ) := by
    exact_mod_cast Nat.succ_pos m
  unfold mathCeilDiv ceilN
  set k : Nat := (L + (m + 1) - 1) / (m + 1) with hk
  have h1 : (k : ℚ) * ((m : ℚ) + 1) ≤ (L : ℚ) + (m : ℚ) := by
    exact_mod_cast hk1
  have hexp : (k + 1) * (m + 1) = k * (m + 1) + (m + 1) := by ring
  have hk3 : L ≤ k * (m + 1) := by
    apply Nat.lt_succ_iff.mp
    have h := hk2
    rw [hexp] at h
    linarith
  have h3 : (L : ℚ) ≤ (k : ℚ) * ((m : ℚ) + 1) := by
    exact_mod_cast hk3
  have hQ : (0 : ℚ) < (m : ℚ) + 1 := by positivity
  rw [Int.ceil_eq_iff]
  push_cast
  constructor
  · rw [lt_div_iff hQ]
    linarith
  · rw [div_le_iff hQ]
    linarith

theorem sliceChunks_nil (c : Nat) : sliceChunks c [] = [] := by
  rw [sliceChunks]

theorem sliceChunks_cons (c : Nat) (hc : c ≠ 0) (x : String) (xs : List String) :
    sliceChunks c (x :: xs) =
      (x :: xs).take c :: sliceChunks c ((x :: xs).drop c) := by
  rw [sliceChunks]
  simp [hc]

theorem sliceChunks_flatten (c : Nat) (hc : c ≠ 0) (l : List String) :
    (sliceChunks c l).flatten = l := by
  induction l using sliceChunks.induct c with
  | case1 => simp [sliceChunks_nil]
  | case2 x xs h => exact absurd h hc
  | case3 x xs h ih =>
    rw [sliceChunks_cons c hc, List.flatten_cons, ih, List.take_append_drop]

theorem sliceChunks_eq_nil_iff (c : Nat) (hc : c ≠ 0) (l : List String) :
    sliceChunks c l = [] ↔ l = [] := by
  cases l with
  | nil => simp [sliceChunks_nil]
  | cons x xs => simp [sliceChunks_cons c hc]

theorem sliceChunks_mem_ne_nil (c : Nat) (hc : c ≠ 0) (l : List String) :
    ∀ g ∈ sliceChunks c l, g ≠ [] := by
  induction l using sliceChunks.induct c with
  | case1 => simp [sliceChunks_nil]
  | case2 x xs h => exact absurd h hc
  | case3 x xs h ih =>
    rw [sliceChunks_cons c hc]
    intro g hg
    rcases List.mem_cons.mp hg with hg | hg
    · subst hg
      simp [List.take_eq_nil_iff, hc]
    · exact ih g hg

theorem sliceChunks_mem_length_le (c : Nat) (hc : c ≠ 0) (l : List String) :
    ∀ g ∈ sliceChunks c l, g.length ≤ c := by
  induction l using sliceChunks.induct c with
  | case1 => simp [sliceChunks_nil]
  | case2 x xs h => exact absurd h hc
  | case3 x xs h ih =>
    rw [sliceChunks_cons c hc]
    intro g hg
    rcases List.mem_cons.mp hg with hg | hg
    · subst hg
      simp [List.length_take]
    · exact ih g hg

theorem sliceChunks_dropLast_length (c : Nat) (hc : c ≠ 0) (l : List String) :
    ∀ g ∈ (sliceChunks c l).dropLast, g.length = c := by
  induction l using sliceChunks.induct c with
  | case1 => simp [sliceChunks_nil]
  | case2 x xs h => exact absurd h hc
  | case3 x xs h ih =>
    rw [sliceChunks_cons c hc]
    by_cases hrest : sliceChunks c ((x :: xs).drop c) = []
    · simp [hrest]
    · rw [List.dropLast_cons_of_ne_nil hrest]
      intro g hg
      rcases List.mem_cons.mp hg with hg | hg
      · subst hg
        have hlen : c < (x :: xs).length := by
          by_contra hle
          push_neg at hle
          have hdrop : (x :: xs).drop c = [] := List.drop_eq_nil_of_le hle
          rw [hdrop, sliceChunks_nil] at hrest
          exact hrest rfl
        simp only [List.length_take, List.length_cons] at hlen ⊢
        omega
      · exact ih g hg

/-- Step identity for ceiling division: consuming one chunk of `c`
records from `n` remaining records leaves `ceilN (n - c) c` chunks. -/
theorem ceilN_step (c n : Nat) (hc : c ≠ 0) (hn : n ≠ 0) :
    ceilN n c = ceilN (n - c) c + 1 := by
  unfold ceilN
  by_cases hcn : n ≤ c
  · have h1 : n - c = 0 := by omega
    rw [h1]
    have h2 : (0 + c - 1) / c = 0 := Nat.div_eq_of_lt (by omega)
    have h3 : (n + c - 1) / c = 1 := by
      apply Nat.div_eq_of_lt_le (by omega) (by omega)
    omega
  · push_neg at hcn
    have h1 : n + c - 1 = n - c + c - 1 + c := by omega
    rw [h1, Nat.add_div_right _ (Nat.pos_of_ne_zero hc)]

theorem sliceChunks_length (c : Nat) (hc : c ≠ 0) (l : List String) :
    (sliceChunks c l).length = ceilN l.length c := by
  induction l using sliceChunks.induct c with
  | case1 =>
    rw [sliceChunks_nil]
    simp only [List.length_nil]
    unfold ceilN
    exact (Nat.div_eq_of_lt (by omega)).symm
  | case2 x xs h => exact absurd h hc
  | case3 x xs h ih =>
    rw [sliceChunks_cons c hc, List.length_cons, ih, List.length_drop]
    rw [ceilN_step c (x :: xs).length hc (by simp)]

theorem ceilN_ne_zero (L N : Nat) (hL : L ≠ 0) (hN : N ≠ 0) :
    ceilN L N ≠ 0 := by
  unfold ceilN
  have h := (Nat.one_le_div_iff (Nat.pos_of_ne_zero hN)).mpr
    (show N ≤ L + N - 1 by omega)
  omega

/-- On a nonempty input and a positive chunk count the partitioner
succeeds and yields the slices of width `ceil(L / N)`. -/
theorem data_eq_ok (lines : List String) (N : Nat) (hN : N ≠ 0)
    (hl : lines ≠ []) :
    data lines (N : Int) = .ok (sliceChunks (ceilN lines.length N) lines) := by
  have hN0 : (N : Int) ≠ 0 := by exact_mod_cast hN
  have hL0 : lines.length ≠ 0 := by simpa using hl
  have hcs : ceilN lines.length N ≠ 0 := ceilN_ne_zero _ _ hL0 hN
  unfold data
  rw [if_neg hN0]
  simp only [mathCeilDiv_natCast lines.length N (Nat.pos_of_ne_zero hN)]
  rw [if_neg (by exact_mod_cast hcs)]
  rw [if_neg (by simp)]
  simp

/-- On an empty input the chunk size is `ceil(0 / N) = 0`, so Python's
`range(0, 0, 0)` raises `ValueError`. -/
theorem data_nil (N : Nat) (hN : N ≠ 0) :
    data [] (N : Int) = .error .valueError := by
  have hN0 : (N : Int) ≠ 0 := by exact_mod_cast hN
  have hceil : mathCeilDiv ((List.length ([] : List String)) : Int) (N : Int)
      = 0 := by
    unfold mathCeilDiv
    simp
  unfold data
  rw [if_neg hN0]
  simp only [hceil]
  simp

theorem data_zero_count (lines : List String) :
    data lines 0 = .error .zeroDivisionError := by
  unfold data
  simp

theorem mathCeilDiv_nonpos_of_neg (L : Nat) (N : Int) (hN : N < 0) :
    mathCeilDiv (L : Int) N ≤ 0 := by
  unfold mathCeilDiv
  apply Int.ceil_le.mpr
  push_cast
  apply div_nonpos_iff.mpr
  left
  constructor
  · positivity
  · exact_mod_cast hN.le

/-- With a negative chunk count the chunk size `ceil(L / N)` is at most
zero: the partitioner either raises `ValueError` (size zero) or yields
nothing at all (negative size makes the range empty). -/
theorem data_neg_count (lines : List String) (N : Int) (hN : N < 0) :
    data lines N = .ok [] ∨ data lines N = .error .valueError := by
  have hN0 : N ≠ 0 := by omega
  have hcs := mathCeilDiv_nonpos_of_neg lines.length N hN
  by_cases h0 : mathCeilDiv (lines.length : Int) N = 0
  · right
    unfold data
    rw [if_neg hN0]
    simp only [h0]
    simp
  · left
    have hlt : mathCeilDiv (lines.length : Int) N < 0 := by omega
    unfold data
    rw [if_neg hN0]
    simp only [if_neg h0, if_pos hlt]

/-- The number of emitted groups, `ceil(L / ceil(L/N))`, never exceeds
the requested count `N` (for a nonempty input). -/
theorem ceilN_ceilN_le (L N : Nat) (hL : L ≠ 0) (hN : N ≠ 0) :
    ceilN L (ceilN L N) ≤ N := by
  obtain ⟨m, rfl⟩ : ∃ m, N = m + 1 := ⟨N - 1, by omega⟩
  set c : Nat := ceilN L (m + 1) with hcdef
  have hc : c ≠ 0 := ceilN_ne_zero L (m + 1) hL (by omega)
  obtain ⟨d, hd⟩ : ∃ d, c = d + 1 := ⟨c - 1, by omega⟩
  have hLm : L + (m + 1) - 1 = L + m := by omega
  have h2 : L + m < (c + 1) * (m + 1) := by
    rw [hcdef]
    unfold ceilN
    rw [hLm]
    exact (Nat.div_lt_iff_lt_mul (Nat.succ_pos m)).1 (Nat.lt_succ_self _)
  have hLc : L ≤ c * (m + 1) := by
    apply Nat.lt_succ_iff.mp
    have hexp : (c + 1) * (m + 1) = c * (m + 1) + (m + 1) := by ring
    rw [hexp] at h2
    linarith
  unfold ceilN
  apply Nat.lt_succ_iff.mp
  rw [Nat.div_lt_iff_lt_mul (Nat.pos_of_ne_zero hc)]
  have hc1 : L + c - 1 = L + d := by omega
  rw [hc1]
  have hexp2 : (m + 1 + 1) * c = (m + 1) * c + c := by ring
  rw [hexp2]
  have hcomm : (m + 1) * c = c * (m + 1) := Nat.mul_comm _ _
  linarith

/-- Modelled from the spec: the fixed well-known remote path at which a
unit's payload is staged.  The concrete value is defined in worker.py,
which is not among the sources; only its fixedness is relevant. -/
def WORDS_PATH : String := "WORDS_PATH"

/-- Modelled from the spec: the fixed well-known remote path at which
the run's shared hash file is staged (concrete value in worker.py). -/
def HASH_PATH : String := "HASH_PATH"

/-- Modelled from the spec: the fixed well-known remote path from which
the computed output is fetched (concrete value in worker.py). -/
def RESULT_PATH : String := "RESULT_PATH"

/-- One declarative step of an execution plan, mirroring the
WorkContext calls available to worker. -/
inductive Step
  | sendJson (remotePath : String) (payload : List String)
  | sendFile (localPath : String) (remotePath : String)
  | run (command : String)
  | downloadFile (remotePath : String) (localPath : String)
deriving DecidableEq, Repr

/-- Embedding of the command sequence worker buffers for one task
(requestor.py lines 59-65), in source order: send_json of the payload
to WORDS_PATH, send_file of the --hash argument to HASH_PATH, run of
the fixed entry point, download_file of RESULT_PATH to the fresh
temporary file.  There is no branching in the loop body. -/
def buildPlan (payload : List String)
    (hashLocalPath outputLocalPath : String) : List Step :=
  [ Step.sendJson WORDS_PATH payload
  , Step.sendFile hashLocalPath HASH_PATH
  , Step.run "/golem/entrypoint/worker.py"
  , Step.downloadFile RESULT_PATH outputLocalPath ]

/-- How one dispatch attempt of the worker loop can end. -/
inductive UnitOutcome
  | success
  | decodeFailure
  | cancelledAtYield
deriving DecidableEq, Repr

/-- Observable resource events of one worker-loop iteration. -/
inductive WorkerEvent
  | allocTemp
  | planSubmitted
  | acceptResult
  | closeTemp
deriving BEq, DecidableEq, Repr

/-- Event trace of one iteration of the worker loop (requestor.py lines
58-71), by outcome of the dispatch attempt.  The loop body has no
try/finally: when `json.load` on line 70 raises (undecodable output)
the `output_file.close()` on line 71 is skipped, and when the attempt
is abandoned while suspended at the yield on line 68 (cancellation or
timeout) neither line 70 nor line 71 runs. -/
def workerTaskTrace : UnitOutcome → List WorkerEvent
  | .success => [.allocTemp, .planSubmitted, .acceptResult, .closeTemp]
  | .decodeFailure => [.allocTemp, .planSubmitted]
  | .cancelledAtYield => [.allocTemp]

/-- Python truthiness of a decoded result, modelled as a string: the
empty string is falsy, any other string is truthy. -/
def truthy (s : String) : Bool := !(s == "")

/-- Embedding of the aggregation loop of main (requestor.py lines
90-99): `result` starts as the empty string and the async-for consumes
every task the executor yields, in completion order, overwriting
`result` whenever the consumed task's result is truthy; the loop body
contains no break.  The returned pair is (number of tasks consumed,
final value of `result`). -/
def mainLoop : List String → String → Nat × String
  | [], result => (0, result)
  | r :: rs, result =>
    let rest := mainLoop rs (if truthy r then r else result)
    (rest.1 + 1, rest.2)

/-- The message printed after the loop (requestor.py lines 100-103). -/
def mainReport (results : List String) : String :=
  if truthy (mainLoop results "").2 then
    "Found matching word: " ++ (mainLoop results "").2
  else
    "No matching words found."

/-- The truthy result of the unit that completes last among the truthy
ones, or the empty string when no unit produces a truthy result. -/
def lastTruthyResult (results : List String) : String :=
  ((results.filter truthy).getLast?).getD ""

theorem mainLoop_fst (results : List String) (acc : String) :
    (mainLoop results acc).1 = results.length := by
  induction results generalizing acc with
  | nil => rfl
  | cons r rs ih => simp [mainLoop, ih]

theorem mainLoop_snd (results : List String) (acc : String) :
    (mainLoop results acc).2 = ((results.filter truthy).getLast?).getD acc := by
  induction results generalizing acc with
  | nil => simp [mainLoop]
  | cons r rs ih =>
    simp only [mainLoop]
    rw [ih]
    cases h : truthy r with
    | false =>
      rw [if_neg (by simp [h]), List.filter_cons_of_neg (by simp [h])]
    | true =>
      rw [if_pos (by simp [h]), List.filter_cons_of_pos (by simp [h])]
      cases hf : rs.filter truthy with
      | nil => simp [hf]
      | cons y ys =>
        have hsome : (y :: ys).getLast?.isSome := by
          simp [List.getLast?_isSome]
        obtain ⟨z, hz⟩ := Option.isSome_iff_exists.mp hsome
        simp [List.getLast?_cons_cons, hz]

theorem mainReport_found (results : List String)
    (hne : results.filter truthy ≠ []) :
    mainReport results = "Found matching word: " ++ lastTruthyResult results := by
  obtain ⟨z, hz⟩ := Option.isSome_iff_exists.mp (List.getLast?_isSome.mpr hne)
  have hzmem : z ∈ results.filter truthy := List.mem_of_mem_getLast? hz
  have hzt : truthy z = true := (List.mem_filter.mp hzmem).2
  unfold mainReport lastTruthyResult
  rw [mainLoop_snd, hz]
  simp [hzt]

theorem mainReport_none (results : List String)
    (hnil : results.filter truthy = []) :
    mainReport results = "No matching words found." := by
  unfold mainReport
  rw [mainLoop_snd, hnil]
  simp [truthy]

theorem mathCeilDiv_one_neg_one : mathCeilDiv 1 (-1) = -1 := by
  unfold mathCeilDiv
  have h : ((1 : Int) : ℚ) / ((-1 : Int) : ℚ) = ((-1 : Int) : ℚ) := by norm_num
  rw [h, Int.ceil_intCast]

/-- Claim C1 fails on the code: the aggregation loop of main has no
break, so after consuming the truthy result "aa" first it still
consumes the remaining unit and reports the later truthy result "bb",
not "aa". -/
theorem C1_counterexample :
    truthy "aa" = true ∧ mainLoop ["aa", "bb"] "" = (2, "bb") ∧
      ¬mainLoop ["aa", "bb"] "" = (1, "aa") := by
  decide

/-- Claim C1 (amended): after a truthy result is observed the loop does
not stop: it consumes every unit the executor yields (the consumed
count equals the total number of units), and the run reports the last
truthy result in completion order rather than the first. -/
theorem C1_no_early_stop (results : List String) (r : String)
    (hr : r ∈ results) (ht : truthy r = true) :
    (mainLoop results "").1 = results.length ∧
    mainReport results = "Found matching word: " ++ lastTruthyResult results := by
  refine ⟨mainLoop_fst results "", mainReport_found results ?_⟩
  exact List.ne_nil_of_mem (List.mem_filter.mpr ⟨hr, ht⟩)

/-- Witness for C1_no_early_stop at the two-unit run ["aa", "bb"]. -/
theorem C1_witness :
    ("aa" : String) ∈ (["aa", "bb"] : List String) ∧
    ((mainLoop ["aa", "bb"] "").1 = (["aa", "bb"] : List String).length ∧
      mainReport ["aa", "bb"] =
        "Found matching word: " ++ lastTruthyResult ["aa", "bb"]) :=
  ⟨by decide, C1_no_early_stop ["aa", "bb"] "aa" (by decide) (by decide)⟩

/-- Claim C2 fails on the code at L = 0: on an empty input the chunk
size is `ceil(0/1) = 0` and `range(0, 0, 0)` raises `ValueError`
instead of emitting zero groups. -/
theorem C2_counterexample :
    data [] (1 : Int) = Except.error PartitionError.valueError :=
  data_nil 1 one_ne_zero

/-- Claim C2 (amended): for every nonempty input (L at least 1) and
every N at least 1 the partitioner succeeds, the concatenation of the
emitted groups in emission order equals the input exactly, and no
emitted group is empty; at L = 0 it raises ValueError instead. -/
theorem C2_partition_exact (lines : List String) (N : Nat)
    (hN : 1 ≤ N) (hl : lines ≠ []) :
    ∃ gs, data lines (N : Int) = Except.ok gs ∧
      gs.flatten = lines ∧ ∀ g ∈ gs, g ≠ [] := by
  have hN0 : N ≠ 0 := by omega
  have hL0 : lines.length ≠ 0 := by simpa using hl
  have hc : ceilN lines.length N ≠ 0 := ceilN_ne_zero _ _ hL0 hN0
  exact ⟨_, data_eq_ok lines N hN0 hl,
    sliceChunks_flatten _ hc lines, sliceChunks_mem_ne_nil _ hc lines⟩

/-- Witness for C2_partition_exact at input ["a", "b", "c"] with N = 2. -/
theorem C2_witness :
    1 ≤ (2 : Nat) ∧ (["a", "b", "c"] : List String) ≠ [] ∧
    ∃ gs, data ["a", "b", "c"] ((2 : Nat) : Int) = Except.ok gs ∧
      gs.flatten = ["a", "b", "c"] ∧ ∀ g ∈ gs, g ≠ [] :=
  ⟨by norm_num, by simp,
    C2_partition_exact ["a", "b", "c"] 2 (by norm_num) (by simp)⟩

/-- Claim C3: on a nonempty input with N at least 1, every emitted
group except possibly the last has size exactly `ceil(L/N)`, every
group (in particular the last) has size at most `ceil(L/N)`, the number
of groups is `ceil(L / ceil(L/N))`, and that number never exceeds N. -/
theorem C3_chunk_sizes (lines : List String) (N : Nat)
    (hN : 1 ≤ N) (hl : lines ≠ []) :
    ∃ gs, data lines (N : Int) = Except.ok gs ∧
      (∀ g ∈ gs.dropLast, g.length = ceilN lines.length N) ∧
      (∀ g ∈ gs, g.length ≤ ceilN lines.length N) ∧
      gs.length = ceilN lines.length (ceilN lines.length N) ∧
      gs.length ≤ N := by
  have hN0 : N ≠ 0 := by omega
  have hL0 : lines.length ≠ 0 := by simpa using hl
  have hc : ceilN lines.length N ≠ 0 := ceilN_ne_zero _ _ hL0 hN0
  refine ⟨_, data_eq_ok lines N hN0 hl,
    sliceChunks_dropLast_length _ hc lines,
    sliceChunks_mem_length_le _ hc lines, ?_, ?_⟩
  · exact sliceChunks_length _ hc lines
  · rw [sliceChunks_length _ hc lines]
    exact ceilN_ceilN_le _ _ hL0 hN0

/-- Witness for C3_chunk_sizes at the five-word input with N = 2. -/
theorem C3_witness :
    1 ≤ (2 : Nat) ∧ (["cat", "dog", "bird", "fish", "wolf"] : List String) ≠ [] ∧
    ∃ gs, data ["cat", "dog", "bird", "fish", "wolf"] ((2 : Nat) : Int)
        = Except.ok gs ∧
      (∀ g ∈ gs.dropLast,
        g.length = ceilN (List.length ["cat", "dog", "bird", "fish", "wolf"]) 2) ∧
      (∀ g ∈ gs,
        g.length ≤ ceilN (List.length ["cat", "dog", "bird", "fish", "wolf"]) 2) ∧
      gs.length = ceilN (List.length ["cat", "dog", "bird", "fish", "wolf"])
        (ceilN (List.length ["cat", "dog", "bird", "fish", "wolf"]) 2) ∧
      gs.length ≤ 2 :=
  ⟨by norm_num, by simp,
    C3_chunk_sizes ["cat", "dog", "bird", "fish", "wolf"] 2 (by norm_num) (by simp)⟩

/-- Claim C4: for every work unit the worker buffers exactly the same
four steps in the same order with no conditional branching: payload to
the fixed remote words path, the shared hash file to the fixed remote
hash path, one invocation of the fixed entry point, one fetch of the
fixed remote output path to the caller-allocated local destination. -/
theorem C4_plan_shape (payload : List String)
    (hashLocalPath outputLocalPath : String) :
    (buildPlan payload hashLocalPath outputLocalPath).length = 4 ∧
    buildPlan payload hashLocalPath outputLocalPath =
      [ Step.sendJson WORDS_PATH payload
      , Step.sendFile hashLocalPath HASH_PATH
      , Step.run "/golem/entrypoint/worker.py"
      , Step.downloadFile RESULT_PATH outputLocalPath ] :=
  ⟨rfl, rfl⟩

/-- Claim C5 fails on the code: with N = -1 on a one-record input the
chunk size is `ceil(1 / -1) = -1`, `range(0, 1, -1)` is empty, and the
partitioner silently succeeds with no groups instead of failing with an
InvalidConfiguration error. -/
theorem C5_counterexample : data ["a"] (-1 : Int) = Except.ok [] := by
  unfold data
  rw [if_neg (by norm_num)]
  simp [mathCeilDiv_one_neg_one]

/-- Claim C5 (amended): the partitioner performs no configuration
validation: it never raises InvalidConfiguration; N = 0 fails with
ZeroDivisionError (from the division itself), and N below 0 either
silently succeeds with no groups or fails with ValueError. -/
theorem C5_nonpositive (lines : List String) (N : Int) (hN : N ≤ 0) :
    data lines N ≠ Except.error PartitionError.invalidConfiguration ∧
    (N = 0 → data lines N = Except.error PartitionError.zeroDivisionError) ∧
    (N < 0 → data lines N = Except.ok [] ∨
      data lines N = Except.error PartitionError.valueError) := by
  by_cases h0 : N = 0
  · subst h0
    refine ⟨?_, fun _ => data_zero_count lines, fun h => absurd h (by omega)⟩
    rw [data_zero_count lines]
    simp
  · have hlt : N < 0 := by omega
    refine ⟨?_, fun h => absurd h h0, fun _ => data_neg_count lines N hlt⟩
    rcases data_neg_count lines N hlt with h | h <;> rw [h] <;> simp

/-- Witness for C5_nonpositive at input ["a"] with N = -1. -/
theorem C5_witness :
    ((-1 : Int) ≤ 0) ∧
    (data ["a"] (-1 : Int) ≠ Except.error PartitionError.invalidConfiguration ∧
      ((-1 : Int) = 0 →
        data ["a"] (-1 : Int) = Except.error PartitionError.zeroDivisionError) ∧
      ((-1 : Int) < 0 → data ["a"] (-1 : Int) = Except.ok [] ∨
        data ["a"] (-1 : Int) = Except.error PartitionError.valueError)) :=
  ⟨by norm_num, C5_nonpositive ["a"] (-1) (by norm_num)⟩

/-- Claim C6: a run in which no unit produces a truthy result reports
the explicit no-match message, and only after the loop has consumed
every unit the executor yielded; a run whose stream contains a truthy
result reports the matched value instead. -/
theorem C6_exhaustion (results : List String) :
    ((∀ r ∈ results, truthy r = false) →
      (mainLoop results "").1 = results.length ∧
      mainReport results = "No matching words found.") ∧
    (results.filter truthy ≠ [] →
      mainReport results = "Found matching word: " ++ lastTruthyResult results) := by
  constructor
  · intro hall
    refine ⟨mainLoop_fst results "", mainReport_none results ?_⟩
    apply List.filter_eq_nil_iff.mpr
    intro a ha
    simp [hall a ha]
  · exact mainReport_found results

/-- Witness for C6_exhaustion: an all-falsy run of two units and a run
containing a match. -/
theorem C6_witness :
    ((mainLoop ["", ""] "").1 = (["", ""] : List String).length ∧
      mainReport ["", ""] = "No matching words found.") ∧
    mainReport ["", "w"] = "Found matching word: " ++ lastTruthyResult ["", "w"] :=
  ⟨(C6_exhaustion ["", ""]).1 (by decide), (C6_exhaustion ["", "w"]).2 (by decide)⟩

/-- Claim C8 fails on the code: on the exit path where `json.load`
raises (undecodable output) the temporary file is allocated but
`output_file.close()` is skipped, so the attempt performs no explicit
release at all, not exactly one. -/
theorem C8_counterexample :
    (workerTaskTrace UnitOutcome.decodeFailure).count WorkerEvent.allocTemp = 1 ∧
    (workerTaskTrace UnitOutcome.decodeFailure).count WorkerEvent.closeTemp = 0 := by
  decide

/-- Claim C8 (amended): each dispatch attempt allocates its temporary
file exactly once, but the explicit release runs exactly once only on
the success path; on the unit-failure and cancellation/timeout paths no
explicit release occurs (the file is left to interpreter finalization). -/
theorem C8_release_paths (o : UnitOutcome) :
    (workerTaskTrace o).count WorkerEvent.allocTemp = 1 ∧
    (workerTaskTrace o).count WorkerEvent.closeTemp =
      (if o = UnitOutcome.success then 1 else 0) := by
  cases o <;> exact ⟨rfl, rfl⟩

/-- Claim C9: the five-word example with N = 2 yields exactly the two
groups of the specification, and any two-record input with N = 3 yields
exactly two singleton groups. -/
theorem C9_examples :
    data ["cat", "dog", "bird", "fish", "wolf"] ((2 : Nat) : Int) =
      Except.ok [["cat", "dog", "bird"], ["fish", "wolf"]] ∧
    ∀ a b : String, data [a, b] ((3 : Nat) : Int) = Except.ok [[a], [b]] := by
  constructor
  · rw [data_eq_ok _ 2 (by norm_num) (by simp)]
    have hc : ceilN (List.length ["cat", "dog", "bird", "fish", "wolf"]) 2 = 3 := by
      simp [ceilN]
    rw [hc]
    simp [sliceChunks]
  · intro a b
    rw [data_eq_ok [a, b] 3 (by norm_num) (by simp)]
    have hc : ceilN (List.length [a, b]) 3 = 1 := by
      simp [ceilN]
    rw [hc]
    simp [sliceChunks]

/-- Claim C10: even when several units complete with truthy results the
loop consumes every unit, and the reported match is the truthy result
of the unit that completes last among them, each later truthy result
overwriting the recorded one. -/
theorem C10_last_truthy_wins (results : List String)
    (h2 : 2 ≤ (results.filter truthy).length) :
    (mainLoop results "").1 = results.length ∧
    (mainLoop results "").2 = lastTruthyResult results ∧
    mainReport results = "Found matching word: " ++ lastTruthyResult results := by
  refine ⟨mainLoop_fst results "", ?_, mainReport_found results ?_⟩
  · rw [mainLoop_snd]
    rfl
  · intro hnil
    rw [hnil] at h2
    simp at h2

/-- Witness for C10_last_truthy_wins at a run with two truthy results. -/
theorem C10_witness :
    2 ≤ ((["aa", "", "bb"] : List String).filter truthy).length ∧
    ((mainLoop ["aa", "", "bb"] "").1 = (["aa", "", "bb"] : List String).length ∧
      (mainLoop ["aa", "", "bb"] "").2 = lastTruthyResult ["aa", "", "bb"] ∧
      mainReport ["aa", "", "bb"] =
        "Found matching word: " ++ lastTruthyResult ["aa", "", "bb"]) :=
  ⟨by decide, C10_last_truthy_wins ["aa", "", "bb"] (by decide)⟩

end HashCracker
